import Mathlib

/-!
Shallow embedding of the document ingestion / knowledge-graph / RAG core of
this repository (src/ingest.py, src/kg.py, src/rag_chain.py).

Python strings are modelled as `List Char` (`PyStr`): `len` is `List.length`,
`str.strip()` / `str.lower()` / `str.split(sep)` / `"pat" in s` are modelled by
the structurally recursive functions below (faithful for the ASCII inputs the
claims are about).  Python floats in the confidence computation are modelled as
exact rationals.  Calls into external services (the LLM capabilities, the
Neo4j driver, the vector store) are modelled as oracle parameters: an oracle
value describes what the external call would return or raise, and exceptions
are modelled with `Except`/`Option`.
-/

/-- Python `str` as a list of characters. -/
abbrev PyStr := List Char

/-- Convenience: a Lean string literal as a `PyStr`. -/
def cs (s : String) : PyStr := s.data

/-- Whitespace characters recognised by the model of Python `str.strip()`. -/
def pyIsSpace (c : Char) : Bool := c = ' ' || c = '\t' || c = '\n' || c = '\r'

/-- Model of Python `str.strip()`: drop whitespace from both ends. -/
def pyStrip (s : PyStr) : PyStr :=
  ((s.dropWhile pyIsSpace).reverse.dropWhile pyIsSpace).reverse

/-- ASCII lower-casing of one character, as Python `str.lower()` does on ASCII. -/
def lowerChar (c : Char) : Char :=
  if 'A' ≤ c ∧ c ≤ 'Z' then Char.ofNat (c.toNat + 32) else c

/-- Model of Python `str.lower()`. -/
def pyLower (s : PyStr) : PyStr := s.map lowerChar

/-- Does `s` start with `pat`? (helper for the substring test). -/
def leadsWith : PyStr → PyStr → Bool
  | _, [] => true
  | [], _ :: _ => false
  | a :: as, b :: bs => a = b && leadsWith as bs

/-- Model of the Python substring test `pat in s`. -/
def pyContains (s pat : PyStr) : Bool :=
  match s with
  | [] => leadsWith [] pat
  | _ :: rest => leadsWith s pat || pyContains rest pat

/-- Model of Python `str.split(sep)` for a one-character separator. -/
def pySplit (sep : Char) : PyStr → List PyStr
  | [] => [[]]
  | a :: rest =>
    if a = sep then [] :: pySplit sep rest
    else
      match pySplit sep rest with
      | [] => [[a]]
      | g :: gs => (a :: g) :: gs

/-- Model of Python `str.splitlines()` (newline-separated content; `\r` is
removed by the subsequent per-line `strip`). -/
def pyLines (s : PyStr) : List PyStr := pySplit '\n' s

/-- Model of Python `str.isdigit()` for ASCII content. -/
def pyIsDigit (s : PyStr) : Bool :=
  !s.isEmpty && s.all (fun c => '0' ≤ c && c ≤ '9')

/-- Model of Python `int(s)` on a digit string. -/
def pyToNat (s : PyStr) : Nat :=
  s.foldl (fun n c => 10 * n + (c.toNat - '0'.toNat)) 0

/-- Model of Python `"sep".join(parts)`. -/
def pyJoin (sep : PyStr) : List PyStr → PyStr
  | [] => []
  | [p] => p
  | p :: q :: rest => p ++ sep ++ pyJoin sep (q :: rest)

/-- Decimal rendering of a natural number, for the f-string page tags. -/
def natToPyStr (n : Nat) : PyStr := Nat.toDigits 10 n

/-! ## LLM capability calls and the throttling retry loop
(src/ingest.py `_analyze_image_with_gpt`, src/kg.py `extract_triples_from_text`) -/

/-- Outcome of one `llm.invoke` attempt: a response content string, or a raised
exception rendered as its message string (Python `str(e)`). -/
inductive LLMOutcome where
  | ok (content : PyStr)
  | err (msg : PyStr)
deriving DecidableEq, Repr

/-- The rate-limit test applied to a raised error in both retry loops:
`err_str = str(e).lower()` then `"429" in err_str or "rate_limit" in err_str`. -/
def isRateLimitErr (msg : PyStr) : Bool :=
  pyContains (pyLower msg) (cs "429") || pyContains (pyLower msg) (cs "rate_limit")

/-- Is this attempt outcome a throttling (rate-limit) error? -/
def isThrottle : LLMOutcome → Bool
  | .ok _ => false
  | .err m => isRateLimitErr m

/-- `max_retries = 12` in both retry loops. -/
def max_retries : Nat := 12

/-- The shared retry loop of `_analyze_image_with_gpt` and
`extract_triples_from_text`: attempt number `attempt` is tried next; on a
rate-limit error with `attempt < max_retries - 1` the loop sleeps
`2 ** attempt + 2` seconds and retries, otherwise the error escapes the loop
(modelled as result `none`).  Returns the successful response content (if any)
together with the list of backoff waits performed.  `fuel` is
`max_retries - attempt`, so the recursion is structural. -/
def retryGo (invoke : Nat → LLMOutcome) : Nat → Nat → List Nat → Option PyStr × List Nat
  | 0, _, waits => (none, waits)
  | fuel + 1, attempt, waits =>
    match invoke attempt with
    | .ok v => (some v, waits)
    | .err m =>
      if isRateLimitErr m ∧ attempt < max_retries - 1 then
        retryGo invoke fuel (attempt + 1) (waits ++ [2 ^ attempt + 2])
      else (none, waits)

/-- The full retry loop `for attempt in range(max_retries)`. -/
def retryRun (invoke : Nat → LLMOutcome) : Option PyStr × List Nat :=
  retryGo invoke max_retries 0 []

/-- `_analyze_image_with_gpt` (src/ingest.py): returns the stripped response
content on success; any error escaping the retry loop is caught by the outer
handler which returns the empty string.  The image bytes and prompt only shape
the message sent to the capability, which the oracle `invoke` stands for.
Result: (returned string, backoff waits performed). -/
def analyze_image_with_gpt (invoke : Nat → LLMOutcome) : PyStr × List Nat :=
  match retryRun invoke with
  | (some v, waits) => (pyStrip v, waits)
  | (none, waits) => ([], waits)

/-- A subject–predicate–object triple (the dicts built in
`extract_triples_from_text`). -/
structure Triple where
  s : PyStr
  p : PyStr
  o : PyStr
deriving DecidableEq, Repr

/-- Parse of one line of model output inside `extract_triples_from_text`:
strip the line; skip it when empty or without a pipe; split on `|`, strip the
fields; keep the triple only when there are exactly 3 non-empty fields. -/
def parseTripleLine (rawLine : PyStr) : Option Triple :=
  let line := pyStrip rawLine
  if line = [] then none
  else if ¬ pyContains line (cs "|") then none
  else
    match (pySplit '|' line).map pyStrip with
    | [s, p, o] => if s ≠ [] ∧ p ≠ [] ∧ o ≠ [] then some ⟨s, p, o⟩ else none
    | _ => none

/-- The line-by-line triple parser applied to a whole response content. -/
def parseTriples (content : PyStr) : List Triple :=
  (pyLines content).filterMap parseTripleLine

/-- `extract_triples_from_text` (src/kg.py): empty list for blank input;
otherwise run the retry loop; on a successful response parse the stripped
content line by line; an error escaping the loop yields the empty list.
Result: (returned triples, backoff waits performed). -/
def extract_triples_from_text (text : PyStr) (invoke : Nat → LLMOutcome) :
    List Triple × List Nat :=
  if pyStrip text = [] then ([], [])
  else
    match retryRun invoke with
    | (some v, waits) => (parseTriples (pyStrip v), waits)
    | (none, waits) => ([], waits)

/-! ## Knowledge-graph upsert and query (src/kg.py) -/

/-- Python slice `chunks[::2]`: the elements at even indices. -/
def everySecond : List α → List α
  | [] => []
  | [a] => [a]
  | a :: _ :: rest => a :: everySecond rest

/-- Structural helper for `batchify`: `fuel` starts at the list length. -/
def batchifyGo (n : Nat) : Nat → List α → List (List α)
  | _, [] => []
  | 0, _ :: _ => []
  | fuel + 1, l => l.take n :: batchifyGo n fuel (l.drop n)

/-- Python `for i in range(0, len(l), n): batch = l[i:i+n]`: the list cut into
consecutive batches of size `n` (the last one possibly shorter). -/
def batchify (n : Nat) (l : List α) : List (List α) := batchifyGo n l.length l

/-- Collected triples of `upsert_kg_from_chunks`: iterate over the sampled
chunks, skip ones with `len(text) < 100`, extend with the extractor output. -/
def collectTriples (extractFn : PyStr → List Triple) (chunks_to_process : List PyStr) :
    List Triple :=
  chunks_to_process.foldl
    (fun acc text => if text.length < 100 then acc else acc ++ extractFn text) []

/-- One `session.run(cypher, triples=batch, ...)` per batch; the oracle
`runErr` says whether the graph transaction for batch `i` raises. -/
def writeBatches (runErr : Nat → Option PyStr) :
    Nat → List (List Triple) → Except PyStr (List (List Triple))
  | _, [] => .ok []
  | i, b :: rest =>
    match runErr i with
    | some e => .error e
    | none =>
      match writeBatches runErr (i + 1) rest with
      | .ok ws => .ok (b :: ws)
      | .error e => .error e

/-- Result of the graph upsert: the batches written and the warnings printed
(progress prints with interpolated counts are not modelled). -/
structure UpsertOut where
  writes : List (List Triple)
  log : List PyStr
deriving DecidableEq, Repr

/-- `upsert_kg_from_chunks` (src/kg.py).  `driverUp` is whether `get_driver()`
returned a connection; `extractFn` stands for `extract_triples_from_text`
under the ambient LLM; `runErr` is the graph-transaction oracle.  When the
driver is unavailable the function logs a warning and returns without touching
the graph; otherwise it samples `chunks[::2]`, skips chunks under 100
characters, collects the extracted triples and writes them in batches of
`BATCH_SIZE = 500`. -/
def upsert_kg_from_chunks (driverUp : Bool) (extractFn : PyStr → List Triple)
    (runErr : Nat → Option PyStr) (chunks : List PyStr) (doc_id : PyStr) :
    Except PyStr UpsertOut :=
  if driverUp then
    let chunks_to_process := everySecond chunks
    let all_triples := collectTriples extractFn chunks_to_process
    if all_triples.isEmpty then .ok ⟨[], [cs "No triples extracted from chunks."]⟩
    else
      match writeBatches runErr 0 (batchify 500 all_triples) with
      | .ok ws => .ok ⟨ws, []⟩
      | .error e => .error e
  else .ok ⟨[], [cs "⚠️ Neo4j is not available - skipping knowledge graph extraction"]⟩

/-- `extract_entities_from_query` (src/kg.py): blank query gives `[]`; the
oracle `resp` is the deterministic LLM response (`none` models a raised
exception, caught and turned into `[]`); otherwise split the stripped content
on `|` and keep the non-blank stripped pieces. -/
def extract_entities_from_query (query : PyStr) (resp : Option PyStr) : List PyStr :=
  if pyStrip query = [] then []
  else
    match resp with
    | none => []
    | some raw =>
      let content := pyStrip raw
      if content = [] then []
      else
        (pySplit '|' content).filterMap fun e =>
          let e' := pyStrip e
          if e' = [] then none else some e'

/-- `filter_relevant_triples` (src/kg.py): empty input passes through; the
oracle `resp` is the deterministic LLM response (`none` models a raised
exception, on which the whole candidate list is returned unchanged); a
response containing `NONE` rejects everything; otherwise the comma-separated
digit tokens are read as indices and the in-range ones select the kept
triples. -/
def filter_relevant_triples (resp : Option PyStr) (triples : List Triple) : List Triple :=
  if triples.isEmpty then []
  else
    match resp with
    | none => triples
    | some raw =>
      let content := pyStrip raw
      if pyContains content (cs "NONE") then []
      else
        let indices := (pySplit ',' content).filterMap fun part =>
          let part' := pyStrip part
          if pyIsDigit part' then some (pyToNat part') else none
        indices.filterMap fun i => triples[i]?

/-- A stored graph edge `(s)-[RELATES_TO {predicate, doc_id}]->(o)`. -/
structure Edge where
  s : PyStr
  p : PyStr
  o : PyStr
  doc_id : PyStr
deriving DecidableEq, Repr

/-- The Cypher `WHERE` clause of `query_kg_for_query`: optional `doc_id`
scoping, then a case-insensitive substring match of any entity against either
endpoint name. -/
def edgeMatch (entities : List PyStr) (docFilter : Option PyStr) (e : Edge) : Bool :=
  (match docFilter with
   | some d => e.doc_id = d
   | none => true)
  && (entities.any (fun ent => pyContains (pyLower e.s) (pyLower ent))
      || entities.any (fun ent => pyContains (pyLower e.o) (pyLower ent)))

/-- The rows returned by the Cypher read: matching edges, `LIMIT 50`,
projected to `(s, p, o)`. -/
def queryRows (graph : List Edge) (entities : List PyStr) (docFilter : Option PyStr) :
    List Triple :=
  ((graph.filter (edgeMatch entities docFilter)).take 50).map fun e => ⟨e.s, e.p, e.o⟩

/-- Result of the graph query: the returned triples and the warnings printed
(progress prints with interpolated counts are not modelled). -/
structure QueryOut where
  result : List Triple
  log : List PyStr
deriving DecidableEq, Repr

/-- `query_kg_for_query` (src/kg.py).  `driverUp` is whether `get_driver()`
returned a connection; `entityResp` and `filterResp` are the two LLM oracles;
`readErr` says whether the Cypher read raises (such an exception is not caught
and propagates); `graph` is the stored edge list.  Unavailable driver: warn
and return `[]`.  No extracted entities: return `[]`.  No matching rows:
return `[]`.  Relevance filter empty: fall back to the first 10 candidates.
Otherwise return the filtered triples. -/
def query_kg_for_query (driverUp : Bool) (entityResp filterResp : Option PyStr)
    (readErr : Option PyStr) (graph : List Edge) (query : PyStr)
    (doc_id : Option PyStr) : Except PyStr QueryOut :=
  if driverUp then
    let entities := extract_entities_from_query query entityResp
    if entities.isEmpty then
      .ok ⟨[], [cs "No entities found in query - skipping KG lookup"]⟩
    else
      match readErr with
      | some e => .error e
      | none =>
        let rows := queryRows graph entities doc_id
        if rows.isEmpty then .ok ⟨[], []⟩
        else
          let relevant_rows := filter_relevant_triples filterResp rows
          if relevant_rows.isEmpty then
            .ok ⟨rows.take 10,
              [cs "Relevance filter removed all triples. Falling back to top 10 candidates."]⟩
          else .ok ⟨relevant_rows, []⟩
  else .ok ⟨[], [cs "Neo4j is not available - returning empty results"]⟩

/-! ## Retrieval-answer synthesis (src/rag_chain.py) -/

/-- A retrieved LangChain `Document` as used by `generate_answer_with_validation`
and `format_docs`: its text plus the consulted metadata entries (`page`,
`type`, `image_path`), each possibly absent. -/
structure RDoc where
  page_content : PyStr
  page : Option Nat
  mtype : Option PyStr
  image_path : Option PyStr
deriving DecidableEq, Repr

/-- `format_docs` (src/rag_chain.py): each document contributes an optional
`[page N (kind)] ` tag (when `page` is present, with `type` defaulting to
`text`) followed by its stripped content; parts are joined with blank lines. -/
def format_docs (docs : List RDoc) : PyStr :=
  pyJoin (cs "\n\n")
    (docs.map fun d =>
      let prefixTag :=
        match d.page with
        | some p => cs "[page " ++ natToPyStr p ++ cs " (" ++ d.mtype.getD (cs "text") ++ cs ")] "
        | none => []
      prefixTag ++ pyStrip d.page_content)

/-- The `kg_context` argument: either a preformatted string or a list of
triple dicts (absent dict keys are modelled as empty strings, matching
`triple.get('s', '')`). -/
inductive KgInput where
  | rawStr (s : PyStr)
  | triples (ts : List Triple)

/-- The `kg_context_str` formatting in `generate_answer_with_validation`: a
triple list becomes `s | p | o` lines, keeping only triples whose three
fields are all non-empty; a string input passes through. -/
def formatKg : KgInput → PyStr
  | .rawStr s => s
  | .triples ts =>
    pyJoin (cs "\n")
      (ts.filterMap fun t =>
        if t.s ≠ [] ∧ t.p ≠ [] ∧ t.o ≠ [] then
          some (t.s ++ cs " | " ++ t.p ++ cs " | " ++ t.o)
        else none)

/-- The fixed insufficiency answer returned when both context blocks are blank. -/
def insufficiencyMsg : PyStr :=
  cs "I don\x27t have enough information from the book to answer this. Please make sure you\x27ve uploaded and indexed a document first."

/-- The fixed answer returned when the context is very short and no KG facts exist. -/
def unrelatedMsg : PyStr :=
  cs "The question doesn\x27t seem to match the content in this document. I can only answer questions about the uploaded book."

/-- The fixed refusal/uncertainty phrases looked for in the lowercased answer. -/
def refusalPhrases : List PyStr :=
  [cs "not related to", cs "don\x27t know based on", cs "cannot answer",
   cs "not in the document", cs "no information about"]

/-- Result of `generate_answer_with_validation`, plus an instrumentation flag
recording whether the answer-generation capability was invoked. -/
structure RagOut where
  answer : PyStr
  confidence : ℚ
  image_paths : List PyStr
  llmCalled : Bool
deriving DecidableEq, Repr

/-- The deduplicated image paths of the retrieved docs: those with metadata
`type == "image"` and a truthy `image_path`.  Python materialises them through
a `set`, whose iteration order is unspecified; the model keeps first
occurrences. -/
def collectImagePaths (docs : List RDoc) : List PyStr :=
  (docs.filterMap fun d =>
    if d.mtype = some (cs "image") then
      match d.image_path with
      | some path => if path ≠ [] then some path else none
      | none => none
    else none).dedup

/-- `generate_answer_with_validation` (src/rag_chain.py).  The question,
history and answer language only shape the prompt, whose response the oracle
`llmResp` stands for; floats are modelled as exact rationals.  Empty context
and KG block: fixed insufficiency answer, confidence 0, no LLM call.  Sparse
context (stripped length < 50) without KG facts: fixed unrelated-question
answer, confidence 0.1, no LLM call.  Otherwise invoke the capability; a
refusal/uncertainty phrase in the lowercased answer forces confidence 0.2,
else confidence is `min(1.0, 0.4 + 0.1*len(docs) + len(context_str)/5000)`. -/
def generate_answer_with_validation (question history : PyStr) (docs : List RDoc)
    (kg_context : KgInput) (answer_lang : PyStr) (llmResp : PyStr) : RagOut :=
  let context_str := format_docs docs
  let kg_context_str := formatKg kg_context
  if pyStrip context_str = [] ∧ pyStrip kg_context_str = [] then
    ⟨insufficiencyMsg, 0, [], false⟩
  else if (pyStrip context_str).length < 50 ∧ pyStrip kg_context_str = [] then
    ⟨unrelatedMsg, 0.1, [], false⟩
  else
    let answer := pyStrip llmResp
    let lower_answer := pyLower answer
    let confidence : ℚ :=
      if refusalPhrases.any (fun ph => pyContains lower_answer ph) then 0.2
      else min 1 (0.4 + 0.1 * (docs.length : ℚ) + (context_str.length : ℚ) / 5000)
    ⟨answer, confidence, collectImagePaths docs, true⟩

/-! ## Ingestion pipeline (src/ingest.py `ingest_pdf`) -/

/-- Per-page outcome oracle for `_process_pdf_page`: either the list of
extracted page documents (their content, irrelevant to the claims, kept as
strings) or a raised exception message. -/
abbrev PageOutcome := Except PyStr (List PyStr)

/-- The inner per-page loop of one batch of `ingest_pdf`: each page is
processed inside a `try`; on success its documents are accumulated and, when a
progress callback was supplied, the callback is invoked with
`(i + 1, total_pages)`; on a raised exception the page is skipped.  Returns
the accumulated `batch_docs` and the callback invocations made, in order. -/
def pageLoop (po : Nat → PageOutcome) (total : Nat) (hasCb : Bool) :
    List Nat → List PyStr × List (Nat × Nat)
  | [] => ([], [])
  | i :: rest =>
    match po i with
    | .ok ds =>
      (ds ++ (pageLoop po total hasCb rest).1,
       (if hasCb then [(i + 1, total)] else []) ++ (pageLoop po total hasCb rest).2)
    | .error _ => pageLoop po total hasCb rest

/-- The batch loop of `ingest_pdf` (`BATCH_SIZE = 50`).  `persist` is the
oracle for the downstream end-of-batch work on a non-empty batch (splitting,
`add_chunks`, `upsert_kg_from_chunks`), keyed by the batch start index; a
raised downstream exception propagates (result `some e`), ending the run.
`fuel` is an upper bound on the remaining batches (structurally decreasing;
`ingest_pdf` supplies enough for all of them).  Returns the callback
invocations made and the escaped exception, if any. -/
def ingestGo (po : Nat → PageOutcome) (persist : Nat → Except PyStr Unit)
    (total : Nat) (hasCb : Bool) :
    Nat → Nat → List (Nat × Nat) → List (Nat × Nat) × Option PyStr
  | 0, _, cbs => (cbs, none)
  | fuel + 1, batchStart, cbs =>
    if batchStart < total then
      let batchEnd := min (batchStart + 50) total
      let idxs := List.range' batchStart (batchEnd - batchStart)
      let batchDocs := (pageLoop po total hasCb idxs).1
      let cbs' := cbs ++ (pageLoop po total hasCb idxs).2
      if batchDocs.isEmpty then ingestGo po persist total hasCb fuel (batchStart + 50) cbs'
      else
        match persist batchStart with
        | .ok _ => ingestGo po persist total hasCb fuel (batchStart + 50) cbs'
        | .error e => (cbs', some e)
    else (cbs, none)

/-- Decidable equality on `Except`, for evaluating the model on concrete inputs. -/
instance {ε α : Type} [DecidableEq ε] [DecidableEq α] : DecidableEq (Except ε α) := fun x y =>
  match x, y with
  | .ok a, .ok b =>
    if h : a = b then isTrue (by rw [h]) else isFalse (by intro hc; cases hc; exact h rfl)
  | .error a, .error b =>
    if h : a = b then isTrue (by rw [h]) else isFalse (by intro hc; cases hc; exact h rfl)
  | .ok _, .error _ => isFalse (by intro hc; cases hc)
  | .error _, .ok _ => isFalse (by intro hc; cases hc)

/-- Observable outcome of `ingest_pdf`: the progress-callback invocations, whether
`doc_pdf.close()` was reached, and the returned document id or escaped error. -/
structure IngestOut where
  callbacks : List (Nat × Nat)
  closed : Bool
  result : Except PyStr PyStr
deriving DecidableEq, Repr

/-- `ingest_pdf` (src/ingest.py): opens the document (`total` pages), runs the
batch loop, and only then calls `doc_pdf.close()` and returns `doc_id` — the
close call is the last statement of the function body, with no `try/finally`
or context manager around the loop, so an exception escaping a batch leaves
the handle open. -/
def ingest_pdf (po : Nat → PageOutcome) (persist : Nat → Except PyStr Unit)
    (total : Nat) (hasCb : Bool) (doc_id : PyStr) : IngestOut :=
  match ingestGo po persist total hasCb total 0 [] with
  | (cbs, none) => ⟨cbs, true, .ok doc_id⟩
  | (cbs, some e) => ⟨cbs, false, .error e⟩

/-! ## Helper lemmas about the string primitives -/

theorem pySplit_ne_nil (sep : Char) (s : PyStr) : pySplit sep s ≠ [] := by
  induction s with
  | nil => simp [pySplit]
  | cons a rest ih =>
    by_cases h : a = sep
    · simp [pySplit, h]
    · rcases hm : pySplit sep rest with _ | ⟨g, gs⟩
      · exact absurd hm ih
      · simp [pySplit, h, hm]

theorem pySplit_no_sep (sep : Char) (s : PyStr) (h : sep ∉ s) : pySplit sep s = [s] := by
  induction s with
  | nil => rfl
  | cons a rest ih =>
    have ha : ¬ a = sep := fun hc => h (hc ▸ List.mem_cons_self a rest)
    have hrest : sep ∉ rest := fun hc => h (List.mem_cons_of_mem a hc)
    simp [pySplit, ha, ih hrest]

theorem pySplit_append_sep (sep : Char) (l s : PyStr) (h : sep ∉ l) :
    pySplit sep (l ++ sep :: s) = l :: pySplit sep s := by
  induction l with
  | nil => simp [pySplit]
  | cons a l ih =>
    have ha : ¬ a = sep := fun hc => h (hc ▸ List.mem_cons_self a l)
    have hl : sep ∉ l := fun hc => h (List.mem_cons_of_mem a hc)
    have hrec := ih hl
    simp only [List.cons_append, pySplit, ha, if_false, List.append_eq, hrec]

theorem pyJoin_split (sep : Char) :
    ∀ ls : List PyStr, ls ≠ [] → (∀ l ∈ ls, sep ∉ l) →
      pySplit sep (pyJoin [sep] ls) = ls
  | [], hne, _ => absurd rfl hne
  | [p], _, hmem => by
    simpa [pyJoin] using pySplit_no_sep sep p (hmem p (by simp))
  | p :: q :: rest, _, hmem => by
    have hp : sep ∉ p := hmem p (by simp)
    have hrec := pyJoin_split sep (q :: rest) (by simp)
      (fun l hl => hmem l (List.mem_cons_of_mem p hl))
    calc pySplit sep (pyJoin [sep] (p :: q :: rest))
        = pySplit sep (p ++ sep :: pyJoin [sep] (q :: rest)) := by
          simp [pyJoin]
      _ = p :: pySplit sep (pyJoin [sep] (q :: rest)) := pySplit_append_sep sep _ _ hp
      _ = p :: q :: rest := by rw [hrec]

/-- A line whose pipe-split does not produce exactly three fields, or produces
an empty field after trimming, is rejected by the per-line parser. -/
theorem parseTripleLine_malformed (rawLine : PyStr)
    (h : ((pySplit '|' (pyStrip rawLine)).map pyStrip).length ≠ 3
        ∨ [] ∈ (pySplit '|' (pyStrip rawLine)).map pyStrip) :
    parseTripleLine rawLine = none := by
  unfold parseTripleLine
  by_cases h1 : pyStrip rawLine = []
  · simp [h1]
  · rw [if_neg h1]
    by_cases h2 : pyContains (pyStrip rawLine) (cs "|")
    · simp only [h2, not_true_eq_false, if_false]
      rcases hm : (pySplit '|' (pyStrip rawLine)).map pyStrip with
          _ | ⟨s, _ | ⟨p, _ | ⟨o, _ | ⟨x, xs⟩⟩⟩⟩
      · rfl
      · rfl
      · rfl
      · rw [hm] at h
        rcases h with h | h
        · simp at h
        · have : s = [] ∨ p = [] ∨ o = [] := by simpa using h
          rcases this with rfl | rfl | rfl <;> simp
      · rfl
    · simp [h2]

/-- Claim C7: the triple-line parser maps `"dog | is-a | animal"` to the single
triple `(dog, is-a, animal)` and `"bad line without pipes"` to the empty list;
in general a line whose pipe-split does not yield exactly 3 fields, or any of
whose trimmed fields is empty, is discarded, and the parse of a multi-line
response is the independent per-line parse (a malformed line never fails the
whole call). -/
theorem C7_triple_line_parsing :
    extract_triples_from_text (cs "some passage") (fun _ => .ok (cs "dog | is-a | animal"))
      = ([⟨cs "dog", cs "is-a", cs "animal"⟩], [])
    ∧ extract_triples_from_text (cs "some passage") (fun _ => .ok (cs "bad line without pipes"))
      = ([], [])
    ∧ (∀ rawLine : PyStr,
        ((pySplit '|' (pyStrip rawLine)).map pyStrip).length ≠ 3
          ∨ [] ∈ (pySplit '|' (pyStrip rawLine)).map pyStrip →
        parseTripleLine rawLine = none)
    ∧ (∀ ls : List PyStr, ls ≠ [] → (∀ l ∈ ls, '\n' ∉ l) →
        parseTriples (pyJoin (cs "\n") ls) = ls.filterMap parseTripleLine) := by
  refine ⟨by decide, by decide, parseTripleLine_malformed, ?_⟩
  intro ls hne hnl
  unfold parseTriples pyLines
  have hsep : cs "\n" = ['\n'] := rfl
  rw [hsep, pyJoin_split '\n' ls hne hnl]

/-- Witness for C7 at concrete inputs: a two-field line is discarded, and a
mixed good/junk response parses to exactly the good line's triple. -/
theorem C7_triple_line_parsing_witness :
    parseTripleLine (cs "a | b") = none
    ∧ parseTriples (pyJoin (cs "\n") [cs "dog | is-a | animal", cs "junk"])
        = [⟨cs "dog", cs "is-a", cs "animal"⟩] :=
  ⟨C7_triple_line_parsing.2.2.1 (cs "a | b") (Or.inl (by decide)),
   (C7_triple_line_parsing.2.2.2 [cs "dog | is-a | animal", cs "junk"]
      (by decide) (by decide)).trans (by decide)⟩

/-! ## Lemmas about the retry loop -/

theorem retryGo_ok (invoke : Nat → LLMOutcome) (fuel attempt : Nat) (waits : List Nat)
    (v : PyStr) (h : invoke attempt = .ok v) :
    retryGo invoke (fuel + 1) attempt waits = (some v, waits) := by
  simp [retryGo, h]

theorem retryGo_throttle (invoke : Nat → LLMOutcome) (fuel attempt : Nat) (waits : List Nat)
    (m : PyStr) (hm : invoke attempt = .err m) (hr : isRateLimitErr m = true)
    (hlt : attempt < max_retries - 1) :
    retryGo invoke (fuel + 1) attempt waits
      = retryGo invoke fuel (attempt + 1) (waits ++ [2 ^ attempt + 2]) := by
  simp [retryGo, hm, hr, hlt]

theorem retryGo_fatal (invoke : Nat → LLMOutcome) (fuel attempt : Nat) (waits : List Nat)
    (m : PyStr) (hm : invoke attempt = .err m) (hr : isRateLimitErr m = false) :
    retryGo invoke (fuel + 1) attempt waits = (none, waits) := by
  simp [retryGo, hm, hr]

theorem retryGo_waits (invoke : Nat → LLMOutcome) :
    ∀ (fuel attempt : Nat) (waits : List Nat),
      ∃ k, (k = 0 ∨ attempt + k ≤ max_retries - 1) ∧
        (retryGo invoke fuel attempt waits).2
          = waits ++ (List.range' attempt k).map (fun a => 2 ^ a + 2) := by
  intro fuel
  induction fuel with
  | zero => exact fun attempt waits => ⟨0, Or.inl rfl, by simp [retryGo]⟩
  | succ f ih =>
    intro attempt waits
    cases hinv : invoke attempt with
    | ok v => exact ⟨0, Or.inl rfl, by simp [retryGo, hinv]⟩
    | err m =>
      by_cases hc : isRateLimitErr m ∧ attempt < max_retries - 1
      · obtain ⟨hc1, hc2⟩ := hc
        obtain ⟨k, hk, heq⟩ := ih (attempt + 1) (waits ++ [2 ^ attempt + 2])
        refine ⟨k + 1, Or.inr (by rcases hk with rfl | hk <;> omega), ?_⟩
        have hstep : retryGo invoke (f + 1) attempt waits
            = retryGo invoke f (attempt + 1) (waits ++ [2 ^ attempt + 2]) := by
          simp [retryGo, hinv, hc1, hc2]
        rw [hstep, heq, List.range'_succ]
        simp
      · refine ⟨0, Or.inl rfl, ?_⟩
        have hstop : retryGo invoke (f + 1) attempt waits = (none, waits) := by
          simp only [retryGo, hinv]
          rw [if_neg hc]
        simp [hstop]

/-- Claim C3: in the shared retry loop of the Vision Describer
(`_analyze_image_with_gpt`) and the Triple Extractor
(`extract_triples_from_text`), a call that raises a rate-limit-marked error on
each of its first 3 attempts and then succeeds returns the successful result
after exactly 3 backoff waits of `2 ^ attempt + 2` seconds; a non-throttling
error stops the loop immediately with no further wait, and the caller then
receives an empty result; and any run performs at most `max_retries - 1 = 11`
waits (at most 12 attempts), each of shape `2 ^ attempt + 2`. -/
theorem C3_retry_policy :
    (∀ (invoke : Nat → LLMOutcome) (v text e0 e1 e2 : PyStr),
      invoke 0 = .err e0 → isRateLimitErr e0 = true →
      invoke 1 = .err e1 → isRateLimitErr e1 = true →
      invoke 2 = .err e2 → isRateLimitErr e2 = true →
      invoke 3 = .ok v → pyStrip text ≠ [] →
      analyze_image_with_gpt invoke
          = (pyStrip v, (List.range 3).map (fun a => 2 ^ a + 2))
        ∧ extract_triples_from_text text invoke
          = (parseTriples (pyStrip v), (List.range 3).map (fun a => 2 ^ a + 2)))
    ∧ (∀ (invoke : Nat → LLMOutcome) (fuel attempt : Nat) (waits : List Nat) (m : PyStr),
        invoke attempt = .err m → isRateLimitErr m = false →
        retryGo invoke (fuel + 1) attempt waits = (none, waits))
    ∧ (∀ (invoke : Nat → LLMOutcome) (m : PyStr),
        invoke 0 = .err m → isRateLimitErr m = false →
        analyze_image_with_gpt invoke = ([], [])
        ∧ ∀ text : PyStr, extract_triples_from_text text invoke = ([], []))
    ∧ (∀ invoke : Nat → LLMOutcome,
        ∃ k ≤ max_retries - 1,
          (retryRun invoke).2 = (List.range k).map (fun a => 2 ^ a + 2)) := by
  refine ⟨?_, retryGo_fatal, ?_, ?_⟩
  · intro invoke v text e0 e1 e2 h0 h0r h1 h1r h2 h2r h3 htext
    have hmap : (List.range 3).map (fun a => 2 ^ a + 2) = [3, 4, 6] := by decide
    have hrun : retryRun invoke = (some v, [3, 4, 6]) := by
      show retryGo invoke (11 + 1) 0 [] = _
      rw [retryGo_throttle invoke 11 0 [] e0 h0 h0r (by decide)]
      show retryGo invoke (10 + 1) 1 [3] = _
      rw [retryGo_throttle invoke 10 1 [3] e1 h1 h1r (by decide)]
      show retryGo invoke (9 + 1) 2 [3, 4] = _
      rw [retryGo_throttle invoke 9 2 [3, 4] e2 h2 h2r (by decide)]
      show retryGo invoke (8 + 1) 3 [3, 4, 6] = _
      exact retryGo_ok invoke 8 3 [3, 4, 6] v h3
    rw [hmap]
    exact ⟨by simp [analyze_image_with_gpt, hrun],
           by simp [extract_triples_from_text, htext, hrun]⟩
  · intro invoke m h0 h0r
    have hrun : retryRun invoke = (none, []) := by
      show retryGo invoke (11 + 1) 0 [] = _
      exact retryGo_fatal invoke 11 0 [] m h0 h0r
    refine ⟨by simp [analyze_image_with_gpt, hrun], fun text => ?_⟩
    by_cases htext : pyStrip text = []
    · simp [extract_triples_from_text, htext]
    · simp [extract_triples_from_text, htext, hrun]
  · intro invoke
    obtain ⟨k, hk, heq⟩ := retryGo_waits invoke max_retries 0 []
    refine ⟨k, ?_, by simpa [List.range_eq_range'] using heq⟩
    rcases hk with rfl | hk
    · simp [max_retries]
    · simpa using hk

/-- Witness for C3 at concrete oracles: three 429 errors then success returns
the stripped content after waits 3, 4, 6; a non-throttling error yields the
empty result with no waits. -/
theorem C3_retry_policy_witness :
    analyze_image_with_gpt
        (fun a => if a < 3 then .err (cs "429 Too Many Requests") else .ok (cs " hello "))
      = (cs "hello", [3, 4, 6])
    ∧ analyze_image_with_gpt (fun _ => .err (cs "invalid request")) = ([], []) :=
  ⟨((C3_retry_policy.1
      (fun a => if a < 3 then .err (cs "429 Too Many Requests") else .ok (cs " hello "))
      (cs " hello ") (cs "text")
      (cs "429 Too Many Requests") (cs "429 Too Many Requests") (cs "429 Too Many Requests")
      rfl (by decide) rfl (by decide) rfl (by decide) rfl (by decide)).1).trans (by decide),
   (C3_retry_policy.2.2.1 (fun _ => .err (cs "invalid request")) (cs "invalid request")
      rfl (by decide)).1⟩

/-! ## Lemmas about sampling, batching and the graph operations -/

theorem everySecond_getElem : ∀ (l : List α) (i : Nat), (everySecond l)[i]? = l[2 * i]?
  | [], i => by simp [everySecond]
  | [a], 0 => by simp [everySecond]
  | [a], i + 1 => by
    simp [everySecond, show 2 * (i + 1) = 2 * i + 1 + 1 from by ring,
      List.getElem?_cons_succ, List.getElem?_nil]
  | a :: b :: rest, 0 => by simp [everySecond]
  | a :: b :: rest, i + 1 => by
    have ih := everySecond_getElem rest i
    simp [everySecond, show 2 * (i + 1) = 2 * i + 1 + 1 from by ring,
      List.getElem?_cons_succ, ih]

theorem collectTriples_eq (extractFn : PyStr → List Triple) (l : List PyStr) :
    collectTriples extractFn l
      = ((l.filter fun t => !decide (t.length < 100)).map extractFn).flatten := by
  suffices h : ∀ acc, l.foldl
        (fun acc text => if text.length < 100 then acc else acc ++ extractFn text) acc
      = acc ++ ((l.filter fun t => !decide (t.length < 100)).map extractFn).flatten by
    simpa [collectTriples] using h []
  induction l with
  | nil => simp
  | cons t rest ih =>
    intro acc
    by_cases ht : t.length < 100
    · simp [List.foldl_cons, ht, ih, List.filter_cons]
    · simp [List.foldl_cons, ht, ih, List.filter_cons, List.append_assoc]

theorem batchifyGo_mem_length (n : Nat) :
    ∀ (fuel : Nat) (l b : List α), b ∈ batchifyGo n fuel l → b.length ≤ n := by
  intro fuel
  induction fuel with
  | zero =>
    intro l b hb
    cases l with
    | nil => simp [batchifyGo] at hb
    | cons x xs => simp [batchifyGo] at hb
  | succ f ih =>
    intro l b hb
    cases l with
    | nil => simp [batchifyGo] at hb
    | cons x xs =>
      have hb' : b = (x :: xs).take n ∨ b ∈ batchifyGo n f ((x :: xs).drop n) := by
        simpa [batchifyGo] using hb
      rcases hb' with rfl | hmem
      · rw [List.length_take]
        exact min_le_left _ _
      · exact ih _ _ hmem

theorem batchifyGo_flatten (n : Nat) (hn : 0 < n) :
    ∀ (fuel : Nat) (l : List α), l.length ≤ fuel → (batchifyGo n fuel l).flatten = l := by
  intro fuel
  induction fuel with
  | zero =>
    intro l hl
    have : l = [] := List.length_eq_zero.mp (Nat.le_zero.mp hl)
    subst this
    simp [batchifyGo]
  | succ f ih =>
    intro l hl
    cases l with
    | nil => simp [batchifyGo]
    | cons x xs =>
      have hdrop : ((x :: xs).drop n).length ≤ f := by
        rw [List.length_drop]
        simp only [List.length_cons] at hl ⊢
        omega
      simp only [batchifyGo, List.flatten_cons, ih _ hdrop, List.take_append_drop]

theorem writeBatches_ok (bs : List (List Triple)) :
    ∀ i, writeBatches (fun _ => none) i bs = .ok bs := by
  induction bs with
  | nil => intro i; rfl
  | cons b rest ih => intro i; simp [writeBatches, ih (i + 1)]

/-- The sampled-triple collection as the claim describes it: keep the chunks
at even indices, drop those shorter than 100 characters, run the extractor on
each survivor and concatenate the outputs in order. -/
def sampledTriplesSpec (extractFn : PyStr → List Triple) (chunks : List PyStr) : List Triple :=
  (((everySecond chunks).filter fun t => !decide (t.length < 100)).map extractFn).flatten

/-- Claim C8: with the graph available, `upsert_kg_from_chunks` collects
exactly the triples of `sampledTriplesSpec` (even-indexed chunks, skipping
those under 100 characters) and writes them in batches of at most 500;
`everySecond` is exactly even-index selection, every written batch has length
at most 500, and the batches concatenate back to the collected triples. -/
theorem C8_upsert_sampling_batching :
    ∀ (extractFn : PyStr → List Triple) (chunks : List PyStr) (doc_id : PyStr),
      upsert_kg_from_chunks true extractFn (fun _ => none) chunks doc_id
        = .ok ⟨batchify 500 (sampledTriplesSpec extractFn chunks),
               if (sampledTriplesSpec extractFn chunks).isEmpty
               then [cs "No triples extracted from chunks."] else []⟩
      ∧ (∀ i : Nat, (everySecond chunks)[i]? = chunks[2 * i]?)
      ∧ (∀ j : Nat,
          ((batchify 500 (sampledTriplesSpec extractFn chunks)).getD j []).length ≤ 500)
      ∧ (batchify 500 (sampledTriplesSpec extractFn chunks)).flatten
          = sampledTriplesSpec extractFn chunks := by
  intro extractFn chunks doc_id
  have hcol : collectTriples extractFn (everySecond chunks)
      = sampledTriplesSpec extractFn chunks := collectTriples_eq extractFn (everySecond chunks)
  refine ⟨?_, fun i => everySecond_getElem chunks i, ?_,
    batchifyGo_flatten 500 (by norm_num) _ _ (le_refl _)⟩
  · unfold upsert_kg_from_chunks
    rw [if_pos rfl]
    simp only [hcol]
    by_cases hemp : (sampledTriplesSpec extractFn chunks).isEmpty
    · have hnil : sampledTriplesSpec extractFn chunks = [] := by
        simpa [List.isEmpty_iff] using hemp
      simp [hemp, hnil, batchify, batchifyGo]
    · simp [hemp, writeBatches_ok]
  · intro j
    by_cases hj : j < (batchify 500 (sampledTriplesSpec extractFn chunks)).length
    · rw [List.getD_eq_getElem _ _ hj]
      exact batchifyGo_mem_length 500 _ _ _ (List.getElem_mem hj)
    · rw [List.getD_eq_default _ _ (Nat.le_of_not_lt hj)]
      simp

/-- Claim C4: with the graph backing store unavailable (no driver), both
`upsert_kg_from_chunks` and `query_kg_for_query` return `.ok` (no raise) with
an empty result — the upsert performs no graph writes and the query returns
the empty list — and log the unavailability warning, for any input. -/
theorem C4_graph_unavailable_graceful :
    ∀ (extractFn : PyStr → List Triple) (runErr : Nat → Option PyStr) (chunks : List PyStr)
      (doc_id : PyStr) (entityResp filterResp readErr : Option PyStr) (graph : List Edge)
      (query : PyStr) (docFilter : Option PyStr),
      upsert_kg_from_chunks false extractFn runErr chunks doc_id
        = .ok ⟨[], [cs "⚠️ Neo4j is not available - skipping knowledge graph extraction"]⟩
      ∧ query_kg_for_query false entityResp filterResp readErr graph query docFilter
        = .ok ⟨[], [cs "Neo4j is not available - returning empty results"]⟩ :=
  fun _ _ _ _ _ _ _ _ _ _ => ⟨rfl, rfl⟩

/-- Claim C9: when the relevance filter returns an empty selection over a
non-empty candidate row set, the knowledge-graph query returns the first 10
unfiltered candidates (with the fallback warning) instead of an empty result. -/
theorem C9_filter_empty_fallback :
    ∀ (entityResp filterResp : Option PyStr) (graph : List Edge) (query : PyStr)
      (docFilter : Option PyStr),
      extract_entities_from_query query entityResp ≠ [] →
      queryRows graph (extract_entities_from_query query entityResp) docFilter ≠ [] →
      filter_relevant_triples filterResp
          (queryRows graph (extract_entities_from_query query entityResp) docFilter) = [] →
      query_kg_for_query true entityResp filterResp none graph query docFilter
        = .ok ⟨(queryRows graph (extract_entities_from_query query entityResp) docFilter).take 10,
               [cs "Relevance filter removed all triples. Falling back to top 10 candidates."]⟩ := by
  intro eR fR graph q docf hent hrows hfilt
  simp [query_kg_for_query, hent, hrows, hfilt]

/-- Witness for C9 at a concrete graph and oracles: the filter answers `NONE`,
so the single candidate row is returned through the first-10 fallback. -/
theorem C9_filter_empty_fallback_witness :
    query_kg_for_query true (some (cs "dog")) (some (cs "NONE")) none
        [⟨cs "dog", cs "is-a", cs "animal", cs "doc-1"⟩] (cs "what is a dog") none
      = .ok ⟨[⟨cs "dog", cs "is-a", cs "animal"⟩],
             [cs "Relevance filter removed all triples. Falling back to top 10 candidates."]⟩ :=
  (C9_filter_empty_fallback (some (cs "dog")) (some (cs "NONE"))
      [⟨cs "dog", cs "is-a", cs "animal", cs "doc-1"⟩] (cs "what is a dog") none
      (by decide) (by decide) (by decide)).trans (by decide)

/-- Claim C10: when the relevance-filter capability call raises, the filter
returns the whole candidate list unchanged, so the query returns all
candidates (never more than the 50-row query cap) and the first-10 fallback is
not applied. -/
theorem C10_filter_exception_all_candidates :
    ∀ (entityResp : Option PyStr) (graph : List Edge) (query : PyStr)
      (docFilter : Option PyStr),
      extract_entities_from_query query entityResp ≠ [] →
      queryRows graph (extract_entities_from_query query entityResp) docFilter ≠ [] →
      filter_relevant_triples none
          (queryRows graph (extract_entities_from_query query entityResp) docFilter)
        = queryRows graph (extract_entities_from_query query entityResp) docFilter
      ∧ query_kg_for_query true entityResp none none graph query docFilter
        = .ok ⟨queryRows graph (extract_entities_from_query query entityResp) docFilter, []⟩
      ∧ (queryRows graph (extract_entities_from_query query entityResp) docFilter).length ≤ 50 := by
  intro eR graph q docf hent hrows
  have hfilt : filter_relevant_triples none
      (queryRows graph (extract_entities_from_query q eR) docf)
      = queryRows graph (extract_entities_from_query q eR) docf := by
    simp [filter_relevant_triples, hrows]
  refine ⟨hfilt, ?_, ?_⟩
  · simp [query_kg_for_query, hent, hrows, hfilt]
  · simp only [queryRows, List.length_map, List.length_take]
    omega

/-- Witness for C10 at a concrete graph: a raised filter call (`none` oracle)
returns the single candidate row unchanged. -/
theorem C10_filter_exception_all_candidates_witness :
    query_kg_for_query true (some (cs "dog")) none none
        [⟨cs "dog", cs "is-a", cs "animal", cs "doc-1"⟩] (cs "what is a dog") none
      = .ok ⟨[⟨cs "dog", cs "is-a", cs "animal"⟩], []⟩ :=
  ((C10_filter_exception_all_candidates (some (cs "dog"))
      [⟨cs "dog", cs "is-a", cs "animal", cs "doc-1"⟩] (cs "what is a dog") none
      (by decide) (by decide)).2.1).trans (by decide)

/-! ## Claims about the retrieval-answer synthesizer (src/rag_chain.py) -/

/-- Counterexample to claim C5 as stated: with two whitespace-only documents
the formatted context is `"\n\n"` — non-empty and shorter than 50 characters —
and there are no graph facts, yet the synthesizer returns the insufficiency
answer with confidence 0.0 (the first branch tests the stripped context), not
the unrelated-question answer with confidence 0.1. -/
theorem C5_sparse_context_counterexample :
    format_docs [⟨[], none, none, none⟩, ⟨[], none, none, none⟩] ≠ []
    ∧ (format_docs [⟨[], none, none, none⟩, ⟨[], none, none, none⟩]).length < 50
    ∧ pyStrip (formatKg (.triples [])) = []
    ∧ generate_answer_with_validation (cs "any question") (cs "")
        [⟨[], none, none, none⟩, ⟨[], none, none, none⟩] (.triples []) (cs "English") (cs "resp")
        ≠ ⟨unrelatedMsg, 0.1, [], false⟩
    ∧ generate_answer_with_validation (cs "any question") (cs "")
        [⟨[], none, none, none⟩, ⟨[], none, none, none⟩] (.triples []) (cs "English") (cs "resp")
        = ⟨insufficiencyMsg, 0, [], false⟩ :=
  ⟨by decide, by decide, by decide, by decide, by decide⟩

/-- Claim C5 as amended: with no retrieved chunks and a blank graph-fact
block, the synthesizer returns the fixed insufficiency message with confidence
0.0, no image paths and no capability call; and when the *stripped* formatted
context is non-empty but shorter than 50 characters and the graph-fact block
is blank, it returns the fixed unrelated-question answer with confidence 0.1,
also without calling the capability. -/
theorem C5_no_context_fixed_answers :
    ∀ (question history answer_lang llmResp : PyStr) (docs : List RDoc) (kg : KgInput),
      (pyStrip (formatKg kg) = [] →
        generate_answer_with_validation question history [] kg answer_lang llmResp
          = ⟨insufficiencyMsg, 0, [], false⟩)
      ∧ (pyStrip (format_docs docs) ≠ [] →
         (pyStrip (format_docs docs)).length < 50 →
         pyStrip (formatKg kg) = [] →
         generate_answer_with_validation question history docs kg answer_lang llmResp
           = ⟨unrelatedMsg, 0.1, [], false⟩) := by
  intro question history answer_lang llmResp docs kg
  constructor
  · intro hkg
    have h0 : pyStrip (format_docs []) = [] := rfl
    simp only [generate_answer_with_validation]
    rw [if_pos ⟨h0, hkg⟩]
  · intro hne hlen hkg
    simp only [generate_answer_with_validation]
    rw [if_neg (fun hc => hne hc.1), if_pos ⟨hlen, hkg⟩]

/-- Witness for the amended C5 at concrete inputs: empty docs give the 0.0
insufficiency answer; a two-character context gives the 0.1 unrelated answer. -/
theorem C5_no_context_fixed_answers_witness :
    generate_answer_with_validation (cs "q") (cs "") [] (.triples []) (cs "English") (cs "resp")
      = ⟨insufficiencyMsg, 0, [], false⟩
    ∧ generate_answer_with_validation (cs "q") (cs "")
        [⟨cs "hi", none, none, none⟩] (.triples []) (cs "English") (cs "resp")
      = ⟨unrelatedMsg, 0.1, [], false⟩ :=
  ⟨(C5_no_context_fixed_answers (cs "q") (cs "") (cs "English") (cs "resp")
      [] (.triples [])).1 (by decide),
   (C5_no_context_fixed_answers (cs "q") (cs "") (cs "English") (cs "resp")
      [⟨cs "hi", none, none, none⟩] (.triples [])).2 (by decide) (by decide) (by decide)⟩

/-- Claim C6: when the synthesizer invokes the answer-generation capability,
the returned confidence is 0.2 if the (lowercased) answer contains any fixed
refusal/uncertainty phrase and otherwise
`min(1.0, 0.4 + 0.1 * retrieved_chunk_count + context_length / 5000)`;
in every case the returned confidence lies in `[0, 1]`. -/
theorem C6_confidence_formula :
    ∀ (question history answer_lang llmResp : PyStr) (docs : List RDoc) (kg : KgInput),
      ((generate_answer_with_validation question history docs kg answer_lang llmResp).llmCalled
          = true →
        (generate_answer_with_validation question history docs kg answer_lang llmResp).confidence
          = (if refusalPhrases.any (fun ph => pyContains (pyLower (pyStrip llmResp)) ph) then 0.2
             else min 1 (0.4 + 0.1 * (docs.length : ℚ)
                + ((format_docs docs).length : ℚ) / 5000)))
      ∧ 0 ≤ (generate_answer_with_validation question history docs kg answer_lang llmResp).confidence
      ∧ (generate_answer_with_validation question history docs kg answer_lang llmResp).confidence
          ≤ 1 := by
  intro question history answer_lang llmResp docs kg
  by_cases h1 : pyStrip (format_docs docs) = [] ∧ pyStrip (formatKg kg) = []
  · have hval : generate_answer_with_validation question history docs kg answer_lang llmResp
        = ⟨insufficiencyMsg, 0, [], false⟩ := by
      simp only [generate_answer_with_validation]
      rw [if_pos h1]
    rw [hval]
    exact ⟨fun hc => by simp at hc, by norm_num, by norm_num⟩
  · by_cases h2 : (pyStrip (format_docs docs)).length < 50 ∧ pyStrip (formatKg kg) = []
    · have hval : generate_answer_with_validation question history docs kg answer_lang llmResp
          = ⟨unrelatedMsg, 0.1, [], false⟩ := by
        simp only [generate_answer_with_validation]
        rw [if_neg h1, if_pos h2]
      rw [hval]
      exact ⟨fun hc => by simp at hc, by norm_num, by norm_num⟩
    · have hval : generate_answer_with_validation question history docs kg answer_lang llmResp
          = ⟨pyStrip llmResp,
             if refusalPhrases.any (fun ph => pyContains (pyLower (pyStrip llmResp)) ph) then 0.2
             else min 1 (0.4 + 0.1 * (docs.length : ℚ)
                + ((format_docs docs).length : ℚ) / 5000),
             collectImagePaths docs, true⟩ := by
        simp only [generate_answer_with_validation]
        rw [if_neg h1, if_neg h2]
      rw [hval]
      refine ⟨fun _ => rfl, ?_, ?_⟩
      · show (0 : ℚ) ≤ if refusalPhrases.any (fun ph => pyContains (pyLower (pyStrip llmResp)) ph)
            then 0.2 else min 1 (0.4 + 0.1 * (docs.length : ℚ)
                + ((format_docs docs).length : ℚ) / 5000)
        split_ifs with hr
        · norm_num
        · refine le_min (by norm_num) ?_
          positivity
      · show (if refusalPhrases.any (fun ph => pyContains (pyLower (pyStrip llmResp)) ph)
            then 0.2 else min 1 (0.4 + 0.1 * (docs.length : ℚ)
                + ((format_docs docs).length : ℚ) / 5000)) ≤ (1 : ℚ)
        split_ifs with hr
        · norm_num
        · exact min_le_left _ _

/-- Witness for C6 at a concrete input hitting the refusal branch: a
sufficiently long context with a refusing answer yields confidence 0.2. -/
theorem C6_confidence_formula_witness :
    (generate_answer_with_validation (cs "q") (cs "")
        [⟨cs "aaaaaaaaaaaaaaaaaaaaaaaaaaaaaaaaaaaaaaaaaaaaaaaaaaaaaaaaaaaa", none, none, none⟩]
        (.triples []) (cs "English") (cs "I cannot answer that")).confidence = 0.2 :=
  ((C6_confidence_formula (cs "q") (cs "") (cs "English") (cs "I cannot answer that")
      [⟨cs "aaaaaaaaaaaaaaaaaaaaaaaaaaaaaaaaaaaaaaaaaaaaaaaaaaaaaaaaaaaa", none, none, none⟩]
      (.triples [])).1 (by decide)).trans (if_pos (by decide))

/-! ## Claims about the ingestion pipeline (src/ingest.py) -/

/-- Whether page `i`'s extraction succeeds under the page oracle. -/
def pageOk (po : Nat → PageOutcome) (i : Nat) : Bool :=
  match po i with
  | .ok _ => true
  | .error _ => false

theorem pageLoop_callbacks (po : Nat → PageOutcome) (total : Nat) :
    ∀ idxs : List Nat,
      (pageLoop po total true idxs).2
        = (idxs.filter (pageOk po)).map (fun i => (i + 1, total)) := by
  intro idxs
  induction idxs with
  | nil => rfl
  | cons i rest ih =>
    cases h : po i with
    | ok ds => simp [pageLoop, h, ih, pageOk, List.filter_cons]
    | error e => simp [pageLoop, h, ih, pageOk, List.filter_cons]

theorem ingestGo_no_error (po : Nat → PageOutcome) (persist : Nat → Except PyStr Unit)
    (total : Nat) (hasCb : Bool) (hp : ∀ b, persist b = .ok ()) :
    ∀ (fuel batchStart : Nat) (cbs : List (Nat × Nat)),
      (ingestGo po persist total hasCb fuel batchStart cbs).2 = none := by
  intro fuel
  induction fuel with
  | zero => intro bs cbs; rfl
  | succ f ih =>
    intro bs cbs
    by_cases hlt : bs < total
    · simp only [ingestGo, if_pos hlt]
      by_cases he :
          ((pageLoop po total hasCb (List.range' bs (min (bs + 50) total - bs))).1).isEmpty
      · simp [he, ih]
      · simp [he, hp bs, ih]
    · simp [ingestGo, hlt]

theorem ingestGo_callbacks (po : Nat → PageOutcome) (persist : Nat → Except PyStr Unit)
    (total : Nat) (hp : ∀ b, persist b = .ok ()) :
    ∀ (fuel batchStart : Nat) (cbs : List (Nat × Nat)), total ≤ batchStart + 50 * fuel →
      ingestGo po persist total true fuel batchStart cbs
        = (cbs ++ ((List.range' batchStart (total - batchStart)).filter (pageOk po)).map
            (fun i => (i + 1, total)), none) := by
  intro fuel
  induction fuel with
  | zero =>
    intro bs cbs hle
    have hz : total - bs = 0 := by omega
    simp [ingestGo, hz, show ¬ bs < total from by omega]
  | succ f ih =>
    intro bs cbs hle
    by_cases hlt : bs < total
    · have key : ((List.range' bs (min (bs + 50) total - bs)).filter (pageOk po)).map
            (fun i => (i + 1, total))
          ++ ((List.range' (bs + 50) (total - (bs + 50))).filter (pageOk po)).map
            (fun i => (i + 1, total))
          = ((List.range' bs (total - bs)).filter (pageOk po)).map (fun i => (i + 1, total)) := by
        rw [← List.map_append, ← List.filter_append]
        congr 2
        by_cases hc : bs + 50 ≤ total
        · have hm : min (bs + 50) total - bs = 50 := by omega
          rw [hm, show bs + 50 = bs + (50 : Nat) from rfl, List.range'_append_1]
          congr 1
          omega
        · have hm : min (bs + 50) total - bs = total - bs := by omega
          have hz : total - (bs + 50) = 0 := by omega
          rw [hm, hz]
          simp
      have hrec : ∀ cbs', ingestGo po persist total true f (bs + 50) cbs'
          = (cbs' ++ ((List.range' (bs + 50) (total - (bs + 50))).filter (pageOk po)).map
              (fun i => (i + 1, total)), none) :=
        fun cbs' => ih (bs + 50) cbs' (by omega)
      simp only [ingestGo, if_pos hlt, pageLoop_callbacks po total]
      by_cases he :
          ((pageLoop po total true (List.range' bs (min (bs + 50) total - bs))).1).isEmpty
      · rw [if_pos he, hrec, List.append_assoc, key]
      · rw [if_neg he]
        simp only [hp bs]
        rw [hrec, List.append_assoc, key]
    · have hz : total - bs = 0 := by omega
      simp [ingestGo, hlt, hz]

/-- Counterexample to claim C1 as stated: with a single page whose extraction
raises, a supplied progress callback is never invoked — the callback call
sits inside the per-page `try`, after `_process_pdf_page` — so it is not
invoked "regardless of whether that page's extraction succeeded or failed". -/
theorem C1_progress_callback_counterexample :
    (ingest_pdf (fun _ => .error (cs "page parse failure")) (fun _ => .ok ())
        1 true (cs "doc-1")).callbacks = []
    ∧ (ingest_pdf (fun _ => .error (cs "page parse failure")) (fun _ => .ok ())
        1 true (cs "doc-1")).callbacks ≠ [(1, 1)] :=
  ⟨by decide, by decide⟩

/-- Claim C1 as amended: when a progress callback is supplied and no
downstream batch step raises, the callback is invoked exactly once with
`(page index + 1, total pages)` for each page whose extraction succeeds, in
page order; a page whose extraction raises is skipped with no callback
invocation. -/
theorem C1_progress_callback_per_page :
    ∀ (po : Nat → PageOutcome) (persist : Nat → Except PyStr Unit) (total : Nat)
      (doc_id : PyStr),
      (∀ b, persist b = .ok ()) →
      (ingest_pdf po persist total true doc_id).callbacks
        = ((List.range total).filter (pageOk po)).map (fun i => (i + 1, total)) := by
  intro po persist total doc_id hp
  unfold ingest_pdf
  rw [ingestGo_callbacks po persist total hp total 0 [] (by omega)]
  simp [List.range_eq_range']

/-- Witness for the amended C1: two pages, the first failing, give exactly one
callback `(2, 2)`. -/
theorem C1_progress_callback_per_page_witness :
    (ingest_pdf (fun i => if i = 0 then .error (cs "bad page") else .ok [cs "text"])
        (fun _ => .ok ()) 2 true (cs "doc-1")).callbacks = [(2, 2)] :=
  (C1_progress_callback_per_page
      (fun i => if i = 0 then .error (cs "bad page") else .ok [cs "text"])
      (fun _ => .ok ()) 2 (cs "doc-1") (fun _ => rfl)).trans (by decide)

/-- Counterexample to claim C2 as stated: when the downstream end-of-batch
work (splitting / vector-store persist / graph upsert) raises, the exception
propagates out of `ingest_pdf` and `doc_pdf.close()` — the plain last
statement of the function, with no `try/finally` or context manager — is
never reached, so the handle is not closed on that exit path. -/
theorem C2_close_counterexample :
    (ingest_pdf (fun _ => .ok [cs "page text"])
        (fun _ => .error (cs "vector store write failed")) 1 true (cs "doc-1")).closed = false
    ∧ (ingest_pdf (fun _ => .ok [cs "page text"])
        (fun _ => .error (cs "vector store write failed")) 1 true (cs "doc-1")).result
        = .error (cs "vector store write failed") :=
  ⟨by decide, by decide⟩

/-- Claim C2 as amended: the document handle is closed (and the document id
returned) whenever ingestion runs to completion — including runs where
individual pages fail — but an error raised by a downstream batch step
propagates and the handle is not closed on that path. -/
theorem C2_close_on_normal_completion :
    ∀ (po : Nat → PageOutcome) (persist : Nat → Except PyStr Unit) (total : Nat)
      (hasCb : Bool) (doc_id : PyStr),
      (∀ b, persist b = .ok ()) →
      (ingest_pdf po persist total hasCb doc_id).closed = true
      ∧ (ingest_pdf po persist total hasCb doc_id).result = .ok doc_id := by
  intro po persist total hasCb doc_id hp
  have h2 := ingestGo_no_error po persist total hasCb hp total 0 []
  unfold ingest_pdf
  rcases hgo : ingestGo po persist total hasCb total 0 [] with ⟨cbs, e⟩
  rw [hgo] at h2
  simp only at h2
  subst h2
  exact ⟨rfl, rfl⟩

/-- Witness for the amended C2: a one-page run with all steps succeeding
closes the handle and returns the document id. -/
theorem C2_close_on_normal_completion_witness :
    (ingest_pdf (fun _ => .ok [cs "page text"]) (fun _ => .ok ()) 1 true
        (cs "doc-1")).closed = true
    ∧ (ingest_pdf (fun _ => .ok [cs "page text"]) (fun _ => .ok ()) 1 true
        (cs "doc-1")).result = .ok (cs "doc-1") :=
  C2_close_on_normal_completion (fun _ => .ok [cs "page text"]) (fun _ => .ok ())
    1 true (cs "doc-1") (fun _ => rfl)
